import Mathlib

/-!
# Verification of the video-editor playback worker (`src/player.rs`)

This file gives a shallow embedding of the background playback worker of the
video editor: the command loop spawned in `VideoPlayer::new` (player.rs lines
49-218).  The worker owns an optional ffmpeg child process and its stdout
stream, reacts to `PlayerCommand`s arriving on a channel, and in the absence
of a command performs one unit of paced frame work.

Modelling choices:
* Child processes are identified by a `Nat` pid allocated from a fresh-pid
  counter carried in the worker state.  The observable process/channel effects
  of one loop iteration are recorded as a list of `PlayerEvent`s:
  `spawned`/`killed`/`waited` for process lifecycle (`Child::spawn`,
  `Child::kill`, `Child::wait`), `frameSent` for a send on the frame channel,
  `playbackEnded` for a send on the playback-ended channel, `repaint` for
  `egui::Context::request_repaint`, and `readAttempt` for the pacing loop's
  `read_exact` on the continuous decoder stream.  `cmdApplied` is ghost
  instrumentation marking that a command was applied.
* A child process's stdout is modelled as the full (finite) list of bytes the
  decoder will ever produce; `Read::read_exact` into a buffer of length `n`
  succeeds exactly when at least `n` bytes remain, consuming them.  Spawning
  is modelled by an oracle `Option (List Byte)`: `none` means `spawn`
  returned `Err`, `some out` means it succeeded with stdout contents `out`.
* Wall-clock pacing (`thread::sleep`, `Instant`) has no effect on the state or
  on which bytes are read, so the sleeps are not represented.
* The ffmpeg argument lists (built with `f32` second formatting) only
  parametrise the external process, which the spawn oracle abstracts, so they
  are not represented; the claims under study do not mention them.
-/

abbrev Byte := Nat

abbrev PathBuf := String

/-- player.rs line 7. -/
def PREVIEW_WIDTH : Nat := 640

/-- player.rs line 8. -/
def PREVIEW_HEIGHT : Nat := 360

/-- `let frame_size = (PREVIEW_WIDTH * PREVIEW_HEIGHT * 4) as usize` (player.rs
lines 141 and 179). -/
def frame_size : Nat := PREVIEW_WIDTH * PREVIEW_HEIGHT * 4

/-- `enum PlayerCommand` (player.rs lines 11-25). -/
inductive PlayerCommand where
  | LoadClip (path : PathBuf) (trim_start_ms : Nat) (trim_end_ms : Nat)
  | StartPlayback (timestamp_ms : Nat)
  | StopPlayback
  | Seek (timestamp_ms : Nat)
  | Stop
deriving DecidableEq

/-- One RGBA pixel, as in `egui::Color32` (4 bytes). -/
structure Color32 where
  r : Byte
  g : Byte
  b : Byte
  a : Byte
deriving DecidableEq

/-- `egui::Color32::BLACK`. -/
def Color32.BLACK : Color32 := ⟨0, 0, 0, 255⟩

/-- `egui::ColorImage`: a size `[width, height]` plus a flat pixel vector. -/
structure ColorImage where
  size : Nat × Nat
  pixels : List Color32
deriving DecidableEq

/-- Group a flat RGBA byte buffer into 4-byte pixels (groups of fewer than 4
trailing bytes are dropped). -/
def toPixels : List Byte → List Color32
  | r :: g :: b :: a :: rest => ⟨r, g, b, a⟩ :: toPixels rest
  | _ => []

/-- `egui::ColorImage::from_rgba_unmultiplied(size, buffer)`. -/
def ColorImage.from_rgba_unmultiplied (size : Nat × Nat) (buffer : List Byte) :
    ColorImage :=
  ⟨size, toPixels buffer⟩

/-- `egui::ColorImage::filled(size, color)`. -/
def ColorImage.filled (size : Nat × Nat) (color : Color32) : ColorImage :=
  ⟨size, List.replicate (size.1 * size.2) color⟩

/-- `struct DecodedFrame` (player.rs lines 27-30).  The source field is named
`_timestamp_ms`; the leading underscore is dropped here. -/
structure DecodedFrame where
  image : ColorImage
  timestamp_ms : Nat
deriving DecidableEq

/-- Number of bytes of pixel data carried by a frame (4 bytes per pixel). -/
def DecodedFrame.byteCount (f : DecodedFrame) : Nat :=
  4 * f.image.pixels.length

/-- Observable effects of the worker, plus the ghost `cmdApplied` marker. -/
inductive PlayerEvent where
  | cmdApplied (c : PlayerCommand)
  | spawned (pid : Nat)
  | killed (pid : Nat)
  | waited (pid : Nat)
  | frameSent (f : DecodedFrame)
  | playbackEnded
  | repaint
  | readAttempt
deriving DecidableEq

/-- The worker thread's local state (player.rs lines 53-60), plus a fresh-pid
counter used to name spawned processes. -/
structure WorkerState where
  current_clip_path : Option PathBuf
  current_clip_trim_start_ms : Nat
  current_clip_trim_end_ms : Nat
  playback_process : Option Nat
  playback_stdout : Option (List Byte)
  is_playing : Bool
  next_pid : Nat
deriving DecidableEq

/-- The worker state at thread start (player.rs lines 53-60). -/
def initialState : WorkerState :=
  ⟨none, 0, 0, none, none, false, 0⟩

/-- Result of one loop iteration: new state, emitted events, and whether the
loop `break`s. -/
structure StepOut where
  state : WorkerState
  events : List PlayerEvent
  brk : Bool
deriving DecidableEq

/-- `if let Some(mut child) = playback_process.take() { child.kill();
child.wait(); }` — the kill-and-reap idiom repeated in the LoadClip,
StartPlayback, StopPlayback and Stop handlers. -/
def takeKillWait (st : WorkerState) : WorkerState × List PlayerEvent :=
  match st.playback_process with
  | some pid => ({ st with playback_process := none },
      [PlayerEvent.killed pid, PlayerEvent.waited pid])
  | none => (st, [])

/-- The `match cmd` command handler of the worker loop (player.rs lines
64-168).  `spawnOut` is the oracle for the one `Command::spawn` call the
handler can make: `none` for `Err`, `some out` for `Ok` with stdout `out`. -/
def applyCommand (st : WorkerState) (cmd : PlayerCommand)
    (spawnOut : Option (List Byte)) : StepOut :=
  match cmd with
  | .LoadClip path trim_start_ms trim_end_ms =>
      -- lines 65-77
      let (st1, evs1) := takeKillWait st
      ⟨{ st1 with current_clip_path := some path,
                  current_clip_trim_start_ms := trim_start_ms,
                  current_clip_trim_end_ms := trim_end_ms,
                  playback_stdout := none,
                  is_playing := false },
        PlayerEvent.cmdApplied cmd :: evs1, false⟩
  | .StartPlayback _timestamp_ms =>
      -- lines 78-113
      if st.is_playing then ⟨st, [PlayerEvent.cmdApplied cmd], false⟩
      else
        match st.current_clip_path with
        | none => ⟨st, [PlayerEvent.cmdApplied cmd], false⟩
        | some _path =>
            let (st1, evs1) := takeKillWait st
            match spawnOut with
            | some out =>
                -- lines 103-108: stash stdout and child, set is_playing
                ⟨{ st1 with playback_stdout := some out,
                            playback_process := some st1.next_pid,
                            is_playing := true,
                            next_pid := st1.next_pid + 1 },
                  PlayerEvent.cmdApplied cmd ::
                    evs1 ++ [PlayerEvent.spawned st1.next_pid], false⟩
            | none =>
                -- line 109: failure only logged
                ⟨st1, PlayerEvent.cmdApplied cmd :: evs1, false⟩
  | .StopPlayback =>
      -- lines 114-122
      let (st1, evs1) := takeKillWait st
      ⟨{ st1 with playback_stdout := none, is_playing := false },
        PlayerEvent.cmdApplied cmd :: evs1, false⟩
  | .Seek timestamp_ms =>
      -- lines 123-159
      if st.is_playing then ⟨st, [PlayerEvent.cmdApplied cmd], false⟩
      else
        match st.current_clip_path with
        | none => ⟨st, [PlayerEvent.cmdApplied cmd], false⟩
        | some _path =>
            match spawnOut with
            | none => ⟨st, [PlayerEvent.cmdApplied cmd], false⟩
            | some out =>
                -- lines 139-156: one-shot process, read_exact one frame,
                -- send it on success, then wait on the child
                let pid := st.next_pid
                let frameEvs :=
                  if frame_size ≤ out.length then
                    [PlayerEvent.frameSent
                        ⟨ColorImage.from_rgba_unmultiplied
                            (PREVIEW_WIDTH, PREVIEW_HEIGHT)
                            (out.take frame_size), timestamp_ms⟩,
                      PlayerEvent.repaint]
                  else []
                ⟨{ st with next_pid := pid + 1 },
                  PlayerEvent.cmdApplied cmd :: PlayerEvent.spawned pid ::
                    frameEvs ++ [PlayerEvent.waited pid], false⟩
  | .Stop =>
      -- lines 160-167: kill and reap, then break
      let (st1, evs1) := takeKillWait st
      ⟨st1, PlayerEvent.cmdApplied cmd :: evs1, true⟩

/-- The frame work of one loop iteration when no command was pending
(player.rs lines 172-210): if playing, pace, then `read_exact` one frame from
the decoder stream; on success send it, on failure reap the process, clear
the continuous state, send a final black frame and a `PlaybackEnded`. -/
def frameTick (st : WorkerState) : WorkerState × List PlayerEvent :=
  if st.is_playing then
    match st.playback_stdout with
    | some stream =>
        if frame_size ≤ stream.length then
          -- lines 183-193
          ({ st with playback_stdout := some (stream.drop frame_size) },
            [PlayerEvent.readAttempt,
              PlayerEvent.frameSent
                ⟨ColorImage.from_rgba_unmultiplied
                    (PREVIEW_WIDTH, PREVIEW_HEIGHT)
                    (stream.take frame_size), 0⟩,
              PlayerEvent.repaint])
        else
          -- lines 194-207: playback finished
          let (st1, evs1) :=
            match st.playback_process with
            | some pid => ({ st with playback_process := none },
                [PlayerEvent.waited pid])
            | none => (st, [])
          ({ st1 with playback_stdout := none, is_playing := false },
            PlayerEvent.readAttempt :: evs1 ++
              [PlayerEvent.frameSent
                  ⟨ColorImage.filled (PREVIEW_WIDTH, PREVIEW_HEIGHT)
                      Color32.BLACK, 0⟩,
                PlayerEvent.playbackEnded])
    | none => (st, [])
  else (st, [])

/-- One iteration of the worker loop (player.rs lines 62-217): a non-blocking
`try_recv`; if a command is pending it is applied and the iteration
`continue`s (or `break`s on Stop) with no frame work; otherwise one frame
tick runs. -/
def workerIter (st : WorkerState) (pending : Option PlayerCommand)
    (spawnOut : Option (List Byte)) : StepOut :=
  match pending with
  | some cmd => applyCommand st cmd spawnOut
  | none =>
      let (st1, evs) := frameTick st
      ⟨st1, evs, false⟩

/-- A schedule entry: what `try_recv` yields this iteration, and the spawn
oracle for any `Command::spawn` the iteration performs. -/
abbrev SchedEntry := Option PlayerCommand × Option (List Byte)

/-- Run the worker loop over a schedule, stopping at `break`. -/
def runWorker : WorkerState → List SchedEntry → WorkerState × List PlayerEvent
  | st, [] => (st, [])
  | st, e :: rest =>
      let out := workerIter st e.1 e.2
      if out.brk then (out.state, out.events)
      else
        let (st1, evs1) := runWorker out.state rest
        (st1, out.events ++ evs1)

/-- The state invariant maintained by the worker loop: while playing, a
process handle and its stdout stream are held; while idle, neither is. -/
def SessionInv (st : WorkerState) : Prop :=
  (st.is_playing = true →
      st.playback_process.isSome = true ∧ st.playback_stdout.isSome = true)
  ∧ (st.is_playing = false →
      st.playback_process = none ∧ st.playback_stdout = none)

instance (st : WorkerState) : Decidable (SessionInv st) := by
  unfold SessionInv; infer_instance

/-- The pids of decoder processes held in the state. -/
def procList (st : WorkerState) : List Nat :=
  st.playback_process.toList

/-- Effect of one event on the list of alive (not yet reaped) child
processes: a spawn adds a pid, a `wait` reaps one; a kill alone does not reap
(the child stays a zombie until waited). -/
def aliveStep (alive : List Nat) : PlayerEvent → List Nat
  | .spawned p => alive ++ [p]
  | .waited p => alive.erase p
  | _ => alive

/-- Alive processes after a list of events. -/
def aliveAfter (init : List Nat) (evs : List PlayerEvent) : List Nat :=
  evs.foldl aliveStep init

/-- The largest number of simultaneously alive processes over the run of an
event list (including the starting point). -/
def runMax (init : List Nat) : List PlayerEvent → Nat
  | [] => init.length
  | e :: evs => max init.length (runMax (aliveStep init e) evs)

/-- The commands recorded (in order) in an event trace. -/
def appliedCmds (evs : List PlayerEvent) : List PlayerCommand :=
  evs.filterMap fun e =>
    match e with
    | .cmdApplied c => some c
    | _ => none

/-- The commands a schedule delivers, in order. -/
def schedCmds (sched : List SchedEntry) : List PlayerCommand :=
  sched.filterMap Prod.fst

/-- Whether an event is a send on the frame channel. -/
def isFrameSent : PlayerEvent → Bool
  | .frameSent _ => true
  | _ => false

/-- Number of frames sent in an event trace. -/
def frameCount (evs : List PlayerEvent) : Nat :=
  (evs.filter isFrameSent).length

/-! ## Helper lemmas -/

theorem toPixels_length : ∀ l : List Byte, (toPixels l).length = l.length / 4
  | [] => by simp [toPixels]
  | [_] => by simp [toPixels]
  | [_, _] => by simp [toPixels]
  | [_, _, _] => by simp [toPixels]
  | _ :: _ :: _ :: _ :: rest => by
      simp only [toPixels, List.length_cons, toPixels_length rest]
      omega

theorem aliveAfter_append (init : List Nat) (a b : List PlayerEvent) :
    aliveAfter init (a ++ b) = aliveAfter (aliveAfter init a) b := by
  simp [aliveAfter, List.foldl_append]

theorem length_le_runMax (init : List Nat) :
    ∀ evs : List PlayerEvent, init.length ≤ runMax init evs
  | [] => le_refl _
  | e :: evs => by simp only [runMax]; exact le_max_left _ _

theorem aliveAfter_take_le_runMax (evs : List PlayerEvent) :
    ∀ (init : List Nat) (k : Nat),
      (aliveAfter init (evs.take k)).length ≤ runMax init evs := by
  induction evs with
  | nil => intro init k; simp [aliveAfter, runMax]
  | cons e evs ih =>
      intro init k
      cases k with
      | zero => exact le_max_left _ _
      | succ k =>
          calc (aliveAfter init ((e :: evs).take (k + 1))).length
              = (aliveAfter (aliveStep init e) (evs.take k)).length := by
                simp [aliveAfter]
            _ ≤ runMax (aliveStep init e) evs := ih _ _
            _ ≤ runMax init (e :: evs) := le_max_right _ _

theorem runMax_append (a : List PlayerEvent) :
    ∀ (init : List Nat) (b : List PlayerEvent),
      runMax init (a ++ b) = max (runMax init a) (runMax (aliveAfter init a) b) := by
  induction a with
  | nil =>
      intro init b
      simp only [List.nil_append, runMax, aliveAfter, List.foldl_nil]
      have := length_le_runMax init b
      omega
  | cons e a ih =>
      intro init b
      rw [List.cons_append]
      simp only [runMax]
      rw [ih (aliveStep init e) b]
      simp only [aliveAfter, List.foldl_cons]
      omega

@[simp] theorem aliveStep_cmdApplied (s : List Nat) (c : PlayerCommand) :
    aliveStep s (PlayerEvent.cmdApplied c) = s := rfl

@[simp] theorem aliveStep_spawned (s : List Nat) (p : Nat) :
    aliveStep s (PlayerEvent.spawned p) = s ++ [p] := rfl

@[simp] theorem aliveStep_killed (s : List Nat) (p : Nat) :
    aliveStep s (PlayerEvent.killed p) = s := rfl

@[simp] theorem aliveStep_waited (s : List Nat) (p : Nat) :
    aliveStep s (PlayerEvent.waited p) = s.erase p := rfl

@[simp] theorem aliveStep_frameSent (s : List Nat) (f : DecodedFrame) :
    aliveStep s (PlayerEvent.frameSent f) = s := rfl

@[simp] theorem aliveStep_playbackEnded (s : List Nat) :
    aliveStep s PlayerEvent.playbackEnded = s := rfl

@[simp] theorem aliveStep_repaint (s : List Nat) :
    aliveStep s PlayerEvent.repaint = s := rfl

@[simp] theorem aliveStep_readAttempt (s : List Nat) :
    aliveStep s PlayerEvent.readAttempt = s := rfl

theorem frameTick_spec (st : WorkerState) (h : SessionInv st) :
    SessionInv (frameTick st).1
    ∧ aliveAfter (procList st) (frameTick st).2 = procList (frameTick st).1
    ∧ runMax (procList st) (frameTick st).2 ≤ 1 := by
  obtain ⟨cp, ts, te, pp, so, ip, np⟩ := st
  simp only [SessionInv] at h
  obtain ⟨hplay, hidle⟩ := h
  cases ip with
  | false =>
      obtain ⟨hpp, hso⟩ := hidle rfl
      subst hpp; subst hso
      simp [frameTick, SessionInv, procList, aliveAfter, runMax]
  | true =>
      obtain ⟨hpp, hso⟩ := hplay rfl
      cases pp with
      | none => simp at hpp
      | some pid =>
          cases so with
          | none => simp at hso
          | some stream =>
              by_cases hlen : frame_size ≤ stream.length
              · simp [frameTick, hlen, SessionInv, procList, aliveAfter,
                  aliveStep, runMax]
              · simp [frameTick, hlen, SessionInv, procList, aliveAfter,
                  aliveStep, runMax]

theorem applyCommand_spec (st : WorkerState) (h : SessionInv st)
    (cmd : PlayerCommand) (o : Option (List Byte)) :
    ((applyCommand st cmd o).brk = false →
        SessionInv (applyCommand st cmd o).state)
    ∧ aliveAfter (procList st) (applyCommand st cmd o).events
        = procList (applyCommand st cmd o).state
    ∧ runMax (procList st) (applyCommand st cmd o).events ≤ 1 := by
  obtain ⟨cp, ts, te, pp, so, ip, np⟩ := st
  simp only [SessionInv] at h
  obtain ⟨hplay, hidle⟩ := h
  cases cmd with
  | LoadClip path a b =>
      cases pp with
      | none =>
          simp [applyCommand, takeKillWait, SessionInv, procList, aliveAfter,
            aliveStep, runMax]
      | some pid =>
          simp [applyCommand, takeKillWait, SessionInv, procList, aliveAfter,
            aliveStep, runMax]
  | StartPlayback t =>
      cases ip with
      | true =>
          obtain ⟨hpp, hso⟩ := hplay rfl
          cases pp with
          | none => simp at hpp
          | some pid =>
              cases so with
              | none => simp at hso
              | some stream =>
                  simp [applyCommand, SessionInv, procList, aliveAfter, runMax]
      | false =>
          obtain ⟨hpp, hso⟩ := hidle rfl
          subst hpp; subst hso
          cases cp with
          | none =>
              simp [applyCommand, SessionInv, procList, aliveAfter, runMax]
          | some p =>
              cases o with
              | some out =>
                  simp [applyCommand, takeKillWait, SessionInv, procList,
                    aliveAfter, aliveStep, runMax]
              | none =>
                  simp [applyCommand, takeKillWait, SessionInv, procList,
                    aliveAfter, aliveStep, runMax]
  | StopPlayback =>
      cases pp with
      | none =>
          simp [applyCommand, takeKillWait, SessionInv, procList, aliveAfter,
            aliveStep, runMax]
      | some pid =>
          simp [applyCommand, takeKillWait, SessionInv, procList, aliveAfter,
            aliveStep, runMax]
  | Seek t =>
      cases ip with
      | true =>
          obtain ⟨hpp, hso⟩ := hplay rfl
          cases pp with
          | none => simp at hpp
          | some pid =>
              cases so with
              | none => simp at hso
              | some stream =>
                  simp [applyCommand, SessionInv, procList, aliveAfter, runMax]
      | false =>
          obtain ⟨hpp, hso⟩ := hidle rfl
          subst hpp; subst hso
          cases cp with
          | none =>
              simp [applyCommand, SessionInv, procList, aliveAfter, runMax]
          | some p =>
              cases o with
              | none =>
                  simp [applyCommand, SessionInv, procList, aliveAfter, runMax]
              | some out =>
                  by_cases hlen : frame_size ≤ out.length
                  · simp [applyCommand, hlen, SessionInv, procList, aliveAfter,
                      aliveStep, runMax]
                  · simp [applyCommand, hlen, SessionInv, procList, aliveAfter,
                      aliveStep, runMax]
  | Stop =>
      cases pp with
      | none =>
          simp [applyCommand, takeKillWait, SessionInv, procList, aliveAfter,
            aliveStep, runMax]
      | some pid =>
          simp [applyCommand, takeKillWait, SessionInv, procList, aliveAfter,
            aliveStep, runMax]

theorem workerIter_spec (st : WorkerState) (h : SessionInv st)
    (pending : Option PlayerCommand) (o : Option (List Byte)) :
    ((workerIter st pending o).brk = false →
        SessionInv (workerIter st pending o).state)
    ∧ aliveAfter (procList st) (workerIter st pending o).events
        = procList (workerIter st pending o).state
    ∧ runMax (procList st) (workerIter st pending o).events ≤ 1 := by
  cases pending with
  | some cmd => exact applyCommand_spec st h cmd o
  | none =>
      obtain ⟨h1, h2, h3⟩ := frameTick_spec st h
      exact ⟨fun _ => h1, h2, h3⟩

theorem procList_length_le_one (st : WorkerState) : (procList st).length ≤ 1 := by
  cases h : st.playback_process <;> simp [procList, h]

theorem runWorker_alive (sched : List SchedEntry) :
    ∀ st : WorkerState, SessionInv st →
      aliveAfter (procList st) (runWorker st sched).2
          = procList (runWorker st sched).1
      ∧ runMax (procList st) (runWorker st sched).2 ≤ 1 := by
  induction sched with
  | nil =>
      intro st h
      exact ⟨rfl, procList_length_le_one st⟩
  | cons e rest ih =>
      intro st h
      obtain ⟨hinv, halive, hmax⟩ := workerIter_spec st h e.1 e.2
      by_cases hbrk : (workerIter st e.1 e.2).brk = true
      · simp only [runWorker, hbrk, if_true]
        exact ⟨halive, hmax⟩
      · simp only [runWorker, hbrk, if_false, Bool.false_eq_true]
        obtain ⟨ha, hm⟩ :=
          ih (workerIter st e.1 e.2).state (hinv (Bool.not_eq_true _ ▸ hbrk))
        constructor
        · rw [aliveAfter_append, halive]; exact ha
        · rw [runMax_append, halive]
          exact max_le hmax hm

/-! ## Claims -/

/-- **C1**: at most one decoder process is alive at any instant over any run
of the worker loop.  Part 1: over every schedule of commands and spawn
outcomes, every prefix of the run's event trace leaves at most one un-reaped
child process.  Part 2: any command that replaces or clears the process
handle (StopPlayback, LoadClip, Stop/shutdown) kills and then waits on the
held process before doing anything else.  Part 3: a Seek one-shot process is
waited-on before the Seek handler returns (its `waited` is the last event of
the handler). -/
theorem decoder_process_exclusivity :
    (∀ (sched : List SchedEntry) (k : Nat),
        (aliveAfter [] (((runWorker initialState sched).2).take k)).length ≤ 1)
    ∧ (∀ (st : WorkerState) (q : Nat), st.playback_process = some q →
        (∀ o, (applyCommand st PlayerCommand.StopPlayback o).events
            = [PlayerEvent.cmdApplied PlayerCommand.StopPlayback,
                PlayerEvent.killed q, PlayerEvent.waited q])
        ∧ (∀ p a b o, (applyCommand st (PlayerCommand.LoadClip p a b) o).events
            = [PlayerEvent.cmdApplied (PlayerCommand.LoadClip p a b),
                PlayerEvent.killed q, PlayerEvent.waited q])
        ∧ (∀ o, (applyCommand st PlayerCommand.Stop o).events
            = [PlayerEvent.cmdApplied PlayerCommand.Stop,
                PlayerEvent.killed q, PlayerEvent.waited q]))
    ∧ (∀ (st : WorkerState) (t : Nat) (out : List Byte),
        st.is_playing = false → ∀ p, st.current_clip_path = some p →
        (applyCommand st (PlayerCommand.Seek t) (some out)).events
          = PlayerEvent.cmdApplied (PlayerCommand.Seek t) ::
              PlayerEvent.spawned st.next_pid ::
              (if frame_size ≤ out.length then
                  [PlayerEvent.frameSent
                      ⟨ColorImage.from_rgba_unmultiplied
                          (PREVIEW_WIDTH, PREVIEW_HEIGHT)
                          (out.take frame_size), t⟩,
                    PlayerEvent.repaint]
                else []) ++ [PlayerEvent.waited st.next_pid]) := by
  refine ⟨?_, ?_, ?_⟩
  · intro sched k
    have hinv : SessionInv initialState := by
      constructor <;> intro h <;> simp [initialState] at h ⊢
    have h1 := aliveAfter_take_le_runMax (runWorker initialState sched).2 [] k
    have h2 := (runWorker_alive sched initialState hinv).2
    have hpl : procList initialState = [] := rfl
    rw [hpl] at h2
    omega
  · intro st q hq
    obtain ⟨cp, ts, te, pp, so, ip, np⟩ := st
    simp only at hq
    subst hq
    refine ⟨?_, ?_, ?_⟩ <;> intros <;>
      simp [applyCommand, takeKillWait]
  · intro st t out hip p hp
    obtain ⟨cp, ts, te, pp, so, ip, np⟩ := st
    simp only at hip hp
    subst hip; subst hp
    by_cases hlen : frame_size ≤ out.length <;>
      simp [applyCommand, hlen]

/-- Witness for C1 at concrete inputs: a playing state holding process 3 has
StopPlayback kill and reap it; a Seek from an idle loaded state waits on its
one-shot process (pid 7) last. -/
theorem decoder_process_exclusivity_witness :
    ((applyCommand ⟨some "clip.mp4", 0, 2000, some 3, some [], true, 4⟩
        PlayerCommand.StopPlayback none).events
      = [PlayerEvent.cmdApplied PlayerCommand.StopPlayback,
          PlayerEvent.killed 3, PlayerEvent.waited 3])
    ∧ ((applyCommand ⟨some "clip.mp4", 0, 2000, none, none, false, 7⟩
        (PlayerCommand.Seek 5) (some [])).events
      = PlayerEvent.cmdApplied (PlayerCommand.Seek 5) ::
          PlayerEvent.spawned 7 ::
          (if frame_size ≤ ([] : List Byte).length then
              [PlayerEvent.frameSent
                  ⟨ColorImage.from_rgba_unmultiplied
                      (PREVIEW_WIDTH, PREVIEW_HEIGHT)
                      (([] : List Byte).take frame_size), 5⟩,
                PlayerEvent.repaint]
            else []) ++ [PlayerEvent.waited 7]) :=
  ⟨(decoder_process_exclusivity.2.1
      ⟨some "clip.mp4", 0, 2000, some 3, some [], true, 4⟩ 3 rfl).1 none,
    decoder_process_exclusivity.2.2
      ⟨some "clip.mp4", 0, 2000, none, none, false, 7⟩ 5 [] rfl "clip.mp4" rfl⟩

@[simp] theorem isFrameSent_cmdApplied (c : PlayerCommand) :
    isFrameSent (PlayerEvent.cmdApplied c) = false := rfl

@[simp] theorem isFrameSent_spawned (p : Nat) :
    isFrameSent (PlayerEvent.spawned p) = false := rfl

@[simp] theorem isFrameSent_killed (p : Nat) :
    isFrameSent (PlayerEvent.killed p) = false := rfl

@[simp] theorem isFrameSent_waited (p : Nat) :
    isFrameSent (PlayerEvent.waited p) = false := rfl

@[simp] theorem isFrameSent_frameSent (f : DecodedFrame) :
    isFrameSent (PlayerEvent.frameSent f) = true := rfl

@[simp] theorem isFrameSent_playbackEnded :
    isFrameSent PlayerEvent.playbackEnded = false := rfl

@[simp] theorem isFrameSent_repaint : isFrameSent PlayerEvent.repaint = false := rfl

@[simp] theorem isFrameSent_readAttempt :
    isFrameSent PlayerEvent.readAttempt = false := rfl

@[simp] theorem appliedCmds_nil : appliedCmds [] = [] := rfl

@[simp] theorem appliedCmds_cons_cmdApplied (c : PlayerCommand)
    (evs : List PlayerEvent) :
    appliedCmds (PlayerEvent.cmdApplied c :: evs) = c :: appliedCmds evs := rfl

@[simp] theorem appliedCmds_cons_spawned (p : Nat) (evs : List PlayerEvent) :
    appliedCmds (PlayerEvent.spawned p :: evs) = appliedCmds evs := rfl

@[simp] theorem appliedCmds_cons_killed (p : Nat) (evs : List PlayerEvent) :
    appliedCmds (PlayerEvent.killed p :: evs) = appliedCmds evs := rfl

@[simp] theorem appliedCmds_cons_waited (p : Nat) (evs : List PlayerEvent) :
    appliedCmds (PlayerEvent.waited p :: evs) = appliedCmds evs := rfl

@[simp] theorem appliedCmds_cons_frameSent (f : DecodedFrame)
    (evs : List PlayerEvent) :
    appliedCmds (PlayerEvent.frameSent f :: evs) = appliedCmds evs := rfl

@[simp] theorem appliedCmds_cons_playbackEnded (evs : List PlayerEvent) :
    appliedCmds (PlayerEvent.playbackEnded :: evs) = appliedCmds evs := rfl

@[simp] theorem appliedCmds_cons_repaint (evs : List PlayerEvent) :
    appliedCmds (PlayerEvent.repaint :: evs) = appliedCmds evs := rfl

@[simp] theorem appliedCmds_cons_readAttempt (evs : List PlayerEvent) :
    appliedCmds (PlayerEvent.readAttempt :: evs) = appliedCmds evs := rfl

theorem appliedCmds_append (a b : List PlayerEvent) :
    appliedCmds (a ++ b) = appliedCmds a ++ appliedCmds b := by
  simp [appliedCmds, List.filterMap_append]

/-- **C2**: while Playing, a short or failed `read_exact` on the decoder
stream makes the worker reap the child, clear the continuous-decode state,
go Idle, and emit exactly one final black frame followed by exactly one
PlaybackEnded event — the event list of that iteration is pinned down
completely. -/
theorem playback_end_on_short_read (st : WorkerState) (h : SessionInv st)
    (hip : st.is_playing = true) (stream : List Byte)
    (hso : st.playback_stdout = some stream)
    (hshort : stream.length < frame_size) :
    (frameTick st).1.is_playing = false
    ∧ (frameTick st).1.playback_process = none
    ∧ (frameTick st).1.playback_stdout = none
    ∧ ∃ pid, st.playback_process = some pid ∧
        (frameTick st).2
          = [PlayerEvent.readAttempt, PlayerEvent.waited pid,
              PlayerEvent.frameSent
                ⟨ColorImage.filled (PREVIEW_WIDTH, PREVIEW_HEIGHT)
                    Color32.BLACK, 0⟩,
              PlayerEvent.playbackEnded] := by
  obtain ⟨cp, ts, te, pp, so, ip, np⟩ := st
  simp only [SessionInv] at h
  simp only at hip hso
  subst hip; subst hso
  obtain ⟨hpp, -⟩ := h.1 rfl
  cases pp with
  | none => simp at hpp
  | some pid =>
      have hlen : ¬ frame_size ≤ stream.length := by omega
      simp [frameTick, hlen]

/-- Witness for C2: a playing session holding process 3 whose stream has no
bytes left ends playback with the pinned event sequence. -/
theorem playback_end_on_short_read_witness :
    (frameTick ⟨some "clip.mp4", 0, 2000, some 3, some [], true, 4⟩).1.is_playing
        = false
    ∧ (frameTick ⟨some "clip.mp4", 0, 2000, some 3, some [], true, 4⟩).1.playback_process
        = none
    ∧ (frameTick ⟨some "clip.mp4", 0, 2000, some 3, some [], true, 4⟩).1.playback_stdout
        = none
    ∧ ∃ pid,
        (⟨some "clip.mp4", 0, 2000, some 3, some [], true, 4⟩ :
            WorkerState).playback_process = some pid ∧
        (frameTick ⟨some "clip.mp4", 0, 2000, some 3, some [], true, 4⟩).2
          = [PlayerEvent.readAttempt, PlayerEvent.waited pid,
              PlayerEvent.frameSent
                ⟨ColorImage.filled (PREVIEW_WIDTH, PREVIEW_HEIGHT)
                    Color32.BLACK, 0⟩,
              PlayerEvent.playbackEnded] :=
  playback_end_on_short_read ⟨some "clip.mp4", 0, 2000, some 3, some [], true, 4⟩
    (by decide) rfl [] rfl (by decide)

theorem applyCommand_brk_iff (st : WorkerState) (cmd : PlayerCommand)
    (o : Option (List Byte)) :
    (applyCommand st cmd o).brk = true ↔ cmd = PlayerCommand.Stop := by
  obtain ⟨cp, ts, te, pp, so, ip, np⟩ := st
  cases cmd with
  | LoadClip p a b => cases pp <;> simp [applyCommand, takeKillWait]
  | StartPlayback t =>
      cases ip <;> cases cp <;> cases pp <;> cases o <;>
        simp [applyCommand, takeKillWait]
  | StopPlayback => cases pp <;> simp [applyCommand, takeKillWait]
  | Seek t =>
      cases ip <;> cases cp <;> cases o <;> simp [applyCommand, takeKillWait]
  | Stop => cases pp <;> simp [applyCommand, takeKillWait]

theorem applyCommand_appliedCmds (st : WorkerState) (cmd : PlayerCommand)
    (o : Option (List Byte)) :
    appliedCmds (applyCommand st cmd o).events = [cmd] := by
  obtain ⟨cp, ts, te, pp, so, ip, np⟩ := st
  cases cmd with
  | LoadClip p a b => cases pp <;> simp [applyCommand, takeKillWait]
  | StartPlayback t =>
      cases ip <;> cases cp <;> cases pp <;> cases o <;>
        simp [applyCommand, takeKillWait]
  | StopPlayback => cases pp <;> simp [applyCommand, takeKillWait]
  | Seek t =>
      cases ip <;> cases cp <;> cases o <;>
        simp [applyCommand, takeKillWait] <;>
        rename_i out <;> by_cases hlen : frame_size ≤ out.length <;>
        simp [hlen, appliedCmds_append]
  | Stop => cases pp <;> simp [applyCommand, takeKillWait]

theorem applyCommand_no_readAttempt (st : WorkerState) (cmd : PlayerCommand)
    (o : Option (List Byte)) :
    PlayerEvent.readAttempt ∉ (applyCommand st cmd o).events := by
  obtain ⟨cp, ts, te, pp, so, ip, np⟩ := st
  cases cmd with
  | LoadClip p a b => cases pp <;> simp [applyCommand, takeKillWait]
  | StartPlayback t =>
      cases ip <;> cases cp <;> cases pp <;> cases o <;>
        simp [applyCommand, takeKillWait]
  | StopPlayback => cases pp <;> simp [applyCommand, takeKillWait]
  | Seek t =>
      cases ip <;> cases cp <;> cases o <;>
        simp [applyCommand, takeKillWait] <;>
        rename_i out <;> by_cases hlen : frame_size ≤ out.length <;>
        simp [hlen]
  | Stop => cases pp <;> simp [applyCommand, takeKillWait]

theorem applyCommand_no_playbackEnded (st : WorkerState) (cmd : PlayerCommand)
    (o : Option (List Byte)) :
    PlayerEvent.playbackEnded ∉ (applyCommand st cmd o).events := by
  obtain ⟨cp, ts, te, pp, so, ip, np⟩ := st
  cases cmd with
  | LoadClip p a b => cases pp <;> simp [applyCommand, takeKillWait]
  | StartPlayback t =>
      cases ip <;> cases cp <;> cases pp <;> cases o <;>
        simp [applyCommand, takeKillWait]
  | StopPlayback => cases pp <;> simp [applyCommand, takeKillWait]
  | Seek t =>
      cases ip <;> cases cp <;> cases o <;>
        simp [applyCommand, takeKillWait] <;>
        rename_i out <;> by_cases hlen : frame_size ≤ out.length <;>
        simp [hlen]
  | Stop => cases pp <;> simp [applyCommand, takeKillWait]

theorem applyCommand_frameSent (st : WorkerState) (cmd : PlayerCommand)
    (o : Option (List Byte)) (f : DecodedFrame)
    (hmem : PlayerEvent.frameSent f ∈ (applyCommand st cmd o).events) :
    ∃ (t : Nat) (out : List Byte),
      cmd = PlayerCommand.Seek t ∧ o = some out ∧ frame_size ≤ out.length ∧
      f = ⟨ColorImage.from_rgba_unmultiplied (PREVIEW_WIDTH, PREVIEW_HEIGHT)
              (out.take frame_size), t⟩ := by
  obtain ⟨cp, ts, te, pp, so, ip, np⟩ := st
  cases cmd with
  | LoadClip p a b => cases pp <;> simp [applyCommand, takeKillWait] at hmem
  | StartPlayback t =>
      cases ip <;> cases cp <;> cases pp <;> cases o <;>
        simp [applyCommand, takeKillWait] at hmem
  | StopPlayback => cases pp <;> simp [applyCommand, takeKillWait] at hmem
  | Seek t =>
      cases ip <;> cases cp <;> cases o <;>
        simp [applyCommand, takeKillWait] at hmem <;>
        [skip] <;> rename_i out <;>
        by_cases hlen : frame_size ≤ out.length <;>
        simp [hlen] at hmem
      all_goals first
        | exact absurd hmem (by simp)
        | (exact ⟨t, _, rfl, rfl, by assumption, by simp [hmem]⟩)
  | Stop => cases pp <;> simp [applyCommand, takeKillWait] at hmem

theorem filled_pixels_length (size : Nat × Nat) (c : Color32) :
    (ColorImage.filled size c).pixels.length = size.1 * size.2 :=
  List.length_replicate _ _

theorem byteCount_mk (img : ColorImage) (t : Nat) :
    DecodedFrame.byteCount ⟨img, t⟩ = 4 * img.pixels.length := rfl

theorem from_rgba_pixels (size : Nat × Nat) (buffer : List Byte) :
    (ColorImage.from_rgba_unmultiplied size buffer).pixels = toPixels buffer := rfl

theorem frameTick_frameSent (st : WorkerState) (f : DecodedFrame)
    (hmem : PlayerEvent.frameSent f ∈ (frameTick st).2) :
    f.timestamp_ms = 0
    ∧ f.byteCount = PREVIEW_WIDTH * PREVIEW_HEIGHT * 4
    ∧ f.image.size = (PREVIEW_WIDTH, PREVIEW_HEIGHT) := by
  obtain ⟨cp, ts, te, pp, so, ip, np⟩ := st
  cases ip with
  | false => simp [frameTick] at hmem
  | true =>
      cases so with
      | none => simp [frameTick] at hmem
      | some stream =>
          by_cases hlen : frame_size ≤ stream.length
          · simp only [frameTick, hlen] at hmem
            simp only [if_true, if_false, List.cons_append, List.nil_append,
              List.mem_cons, List.not_mem_nil, or_false,
              PlayerEvent.frameSent.injEq, reduceCtorEq, false_or] at hmem
            subst hmem
            refine ⟨rfl, ?_, rfl⟩
            rw [byteCount_mk, from_rgba_pixels, toPixels_length,
              List.length_take, min_eq_left hlen]
            decide
          · cases pp <;>
              · simp only [frameTick, hlen] at hmem
                simp only [if_true, if_false, List.cons_append, List.nil_append,
                  List.mem_cons, List.not_mem_nil, or_false,
                  PlayerEvent.frameSent.injEq, reduceCtorEq, false_or] at hmem
                subst hmem
                refine ⟨rfl, ?_, rfl⟩
                rw [byteCount_mk, filled_pixels_length]
                decide

theorem frameTick_appliedCmds (st : WorkerState) :
    appliedCmds (frameTick st).2 = [] := by
  obtain ⟨cp, ts, te, pp, so, ip, np⟩ := st
  cases ip with
  | false => simp [frameTick]
  | true =>
      cases so with
      | none => simp [frameTick]
      | some stream =>
          by_cases hlen : frame_size ≤ stream.length
          · simp [frameTick, hlen]
          · cases pp <;> simp [frameTick, hlen]

theorem workerIter_none (st : WorkerState) (o : Option (List Byte)) :
    workerIter st none o = ⟨(frameTick st).1, (frameTick st).2, false⟩ := rfl

theorem runWorker_cmds (sched : List SchedEntry) :
    ∀ st : WorkerState, PlayerCommand.Stop ∉ schedCmds sched →
      appliedCmds (runWorker st sched).2 = schedCmds sched := by
  induction sched with
  | nil => intro st _; simp [runWorker, schedCmds, appliedCmds]
  | cons e rest ih =>
      intro st h
      obtain ⟨pe, po⟩ := e
      cases pe with
      | none =>
          have hsched : schedCmds ((none, po) :: rest) = schedCmds rest := by
            simp [schedCmds]
          rw [hsched] at h ⊢
          show appliedCmds (runWorker st ((none, po) :: rest)).2 = _
          simp only [runWorker, workerIter_none]
          simp only [if_neg (by simp : ¬ (false = true))]
          rw [appliedCmds_append, frameTick_appliedCmds, List.nil_append]
          exact ih _ h
      | some c =>
          have hsched : schedCmds ((some c, po) :: rest) = c :: schedCmds rest := by
            simp [schedCmds]
          rw [hsched] at h ⊢
          have hc : c ≠ PlayerCommand.Stop := fun hEq => h (hEq ▸ List.mem_cons_self _ _)
          have hrest : PlayerCommand.Stop ∉ schedCmds rest :=
            fun hm => h (List.mem_cons_of_mem _ hm)
          have hbrk : (applyCommand st c po).brk = false := by
            cases hb : (applyCommand st c po).brk
            · rfl
            · exact absurd ((applyCommand_brk_iff st c po).1 hb) hc
          show appliedCmds (runWorker st ((some c, po) :: rest)).2 = _
          simp only [runWorker]
          have hiter : workerIter st (some c) po = applyCommand st c po := rfl
          rw [hiter, hbrk]
          simp only [if_neg (by simp : ¬ (false = true))]
          rw [appliedCmds_append, applyCommand_appliedCmds]
          rw [ih _ hrest]
          rfl

/-- **C3**: a pending command always takes priority over frame work: the
iteration is exactly the command application (part 1), which never reads the
decoder stream (part 2) and applies exactly that one command (part 3); the
loop continues afterwards except for the terminal Stop/shutdown command
(part 4); over a whole run, commands are applied one per iteration in send
order (part 5). -/
theorem commands_take_priority :
    (∀ (st : WorkerState) (cmd : PlayerCommand) (o : Option (List Byte)),
        workerIter st (some cmd) o = applyCommand st cmd o)
    ∧ (∀ (st : WorkerState) (cmd : PlayerCommand) (o : Option (List Byte)),
        PlayerEvent.readAttempt ∉ (applyCommand st cmd o).events)
    ∧ (∀ (st : WorkerState) (cmd : PlayerCommand) (o : Option (List Byte)),
        appliedCmds (applyCommand st cmd o).events = [cmd])
    ∧ (∀ (st : WorkerState) (cmd : PlayerCommand) (o : Option (List Byte)),
        ((applyCommand st cmd o).brk = true ↔ cmd = PlayerCommand.Stop))
    ∧ (∀ (sched : List SchedEntry) (st : WorkerState),
        PlayerCommand.Stop ∉ schedCmds sched →
        appliedCmds (runWorker st sched).2 = schedCmds sched) :=
  ⟨fun _ _ _ => rfl, applyCommand_no_readAttempt, applyCommand_appliedCmds,
    applyCommand_brk_iff, fun sched st h => runWorker_cmds sched st h⟩

/-- Witness for C3: a four-entry schedule (load, start, a command-free tick,
stop) is applied in exactly the order sent. -/
theorem commands_take_priority_witness :
    appliedCmds (runWorker initialState
        [(some (PlayerCommand.LoadClip "a.mp4" 0 1000), none),
          (some (PlayerCommand.StartPlayback 0), none),
          (none, none),
          (some PlayerCommand.StopPlayback, none)]).2
      = schedCmds
        [(some (PlayerCommand.LoadClip "a.mp4" 0 1000), none),
          (some (PlayerCommand.StartPlayback 0), none),
          (none, none),
          (some PlayerCommand.StopPlayback, none)] :=
  commands_take_priority.2.2.2.2
    [(some (PlayerCommand.LoadClip "a.mp4" 0 1000), none),
      (some (PlayerCommand.StartPlayback 0), none),
      (none, none),
      (some PlayerCommand.StopPlayback, none)]
    initialState (by decide)

/-- **C4**: a Seek received while Playing is a complete no-op: the state is
returned unchanged, no process is spawned, nothing is waited on, and no
frame is sent (the only event is the ghost command marker). -/
theorem seek_while_playing_noop (st : WorkerState) (t : Nat)
    (o : Option (List Byte)) (h : st.is_playing = true) :
    applyCommand st (PlayerCommand.Seek t) o
      = ⟨st, [PlayerEvent.cmdApplied (PlayerCommand.Seek t)], false⟩ := by
  obtain ⟨cp, ts, te, pp, so, ip, np⟩ := st
  simp only at h
  subst h
  simp [applyCommand]

/-- Witness for C4 at a concrete playing state. -/
theorem seek_while_playing_noop_witness :
    applyCommand ⟨some "clip.mp4", 0, 2000, some 3, some [], true, 4⟩
        (PlayerCommand.Seek 9) (some [1, 2, 3])
      = ⟨⟨some "clip.mp4", 0, 2000, some 3, some [], true, 4⟩,
          [PlayerEvent.cmdApplied (PlayerCommand.Seek 9)], false⟩ :=
  seek_while_playing_noop ⟨some "clip.mp4", 0, 2000, some 3, some [], true, 4⟩
    9 (some [1, 2, 3]) rfl

/-- **C5**: a Seek processed while Idle with a loaded source emits at most
one frame (part 1); if fewer than `width*height*4` bytes are available
before the one-shot stream closes, no frame at all is emitted (part 2); a
frame is emitted exactly when `width*height*4` bytes are read, and then it
is built from exactly the first `frame_size` bytes (part 3); the playback
mode is unchanged in every case (part 4). -/
theorem seek_idle_one_frame (st : WorkerState) (t : Nat) (p : PathBuf)
    (hip : st.is_playing = false) (hp : st.current_clip_path = some p) :
    (∀ o, frameCount (applyCommand st (PlayerCommand.Seek t) o).events ≤ 1)
    ∧ (∀ out : List Byte, out.length < frame_size →
        frameCount (applyCommand st (PlayerCommand.Seek t) (some out)).events
          = 0)
    ∧ (∀ out : List Byte, frame_size ≤ out.length →
        (applyCommand st (PlayerCommand.Seek t) (some out)).events
          = [PlayerEvent.cmdApplied (PlayerCommand.Seek t),
              PlayerEvent.spawned st.next_pid,
              PlayerEvent.frameSent
                ⟨ColorImage.from_rgba_unmultiplied
                    (PREVIEW_WIDTH, PREVIEW_HEIGHT) (out.take frame_size), t⟩,
              PlayerEvent.repaint,
              PlayerEvent.waited st.next_pid])
    ∧ (∀ o, (applyCommand st (PlayerCommand.Seek t) o).state.is_playing
          = st.is_playing) := by
  obtain ⟨cp, ts, te, pp, so, ip, np⟩ := st
  simp only at hip hp
  subst hip; subst hp
  refine ⟨?_, ?_, ?_, ?_⟩
  · intro o
    cases o with
    | none => simp [applyCommand, frameCount]
    | some out =>
        by_cases hlen : frame_size ≤ out.length <;>
          simp [applyCommand, hlen, frameCount]
  · intro out hshort
    have hlen : ¬ frame_size ≤ out.length := by omega
    simp [applyCommand, hlen, frameCount]
  · intro out hlen
    simp [applyCommand, hlen]
  · intro o
    cases o with
    | none => simp [applyCommand]
    | some out =>
        by_cases hlen : frame_size ≤ out.length <;>
          simp [applyCommand, hlen]

/-- Witness for C5: a Seek at position 9 from an idle loaded state, with a
one-shot stream that closes after 2 bytes, emits no frame and stays idle. -/
theorem seek_idle_one_frame_witness :
    frameCount (applyCommand ⟨some "clip.mp4", 0, 2000, none, none, false, 0⟩
        (PlayerCommand.Seek 9) (some [7, 7])).events = 0
    ∧ (applyCommand ⟨some "clip.mp4", 0, 2000, none, none, false, 0⟩
        (PlayerCommand.Seek 9) (some [7, 7])).state.is_playing = false :=
  ⟨(seek_idle_one_frame ⟨some "clip.mp4", 0, 2000, none, none, false, 0⟩
      9 "clip.mp4" rfl rfl).2.1 [7, 7] (by decide),
    (seek_idle_one_frame ⟨some "clip.mp4", 0, 2000, none, none, false, 0⟩
      9 "clip.mp4" rfl rfl).2.2.2 (some [7, 7])⟩

/-- **C6**: when the decoder spawn for StartPlayback fails, the failure is
only logged: the whole session state (including mode Idle and the loaded
source) is returned unchanged and no frame, spawn, kill or wait event is
produced. -/
theorem start_playback_spawn_failure (st : WorkerState) (t : Nat)
    (h : SessionInv st) (hip : st.is_playing = false) :
    applyCommand st (PlayerCommand.StartPlayback t) none
      = ⟨st, [PlayerEvent.cmdApplied (PlayerCommand.StartPlayback t)],
          false⟩ := by
  obtain ⟨cp, ts, te, pp, so, ip, np⟩ := st
  simp only at hip
  subst hip
  obtain ⟨hpp, hso⟩ := h.2 rfl
  simp only at hpp hso
  subst hpp; subst hso
  cases cp <;> simp [applyCommand, takeKillWait]

/-- Witness for C6 at a concrete idle state with a loaded clip. -/
theorem start_playback_spawn_failure_witness :
    applyCommand ⟨some "clip.mp4", 0, 2000, none, none, false, 0⟩
        (PlayerCommand.StartPlayback 5) none
      = ⟨⟨some "clip.mp4", 0, 2000, none, none, false, 0⟩,
          [PlayerEvent.cmdApplied (PlayerCommand.StartPlayback 5)], false⟩ :=
  start_playback_spawn_failure ⟨some "clip.mp4", 0, 2000, none, none, false, 0⟩
    5 (by decide) rfl

/-- **C7 counterexample**: continuous-path frames do not carry the nominal
timestamp of the frame they represent.  Concretely: load a clip, start
playback at position 500 ms (so the first continuous frame represents
position 500), with the decoder producing exactly one frame of bytes; the
frame delivered on the frame channel carries `_timestamp_ms = 0`, and
`0 ≠ 500` (the source hard-codes `_timestamp_ms: 0` at player.rs line 190). -/
theorem frame_timestamp_counterexample :
    (frameTick ((applyCommand
        ((applyCommand initialState
            (PlayerCommand.LoadClip "clip.mp4" 0 2000) none).state)
        (PlayerCommand.StartPlayback 500)
        (some (List.replicate frame_size 0))).state)).2
      = [PlayerEvent.readAttempt,
          PlayerEvent.frameSent
            ⟨ColorImage.from_rgba_unmultiplied (PREVIEW_WIDTH, PREVIEW_HEIGHT)
                ((List.replicate frame_size 0).take frame_size), 0⟩,
          PlayerEvent.repaint]
    ∧ (0 : Nat) ≠ 500 := by
  constructor
  · have h1 : (applyCommand initialState
        (PlayerCommand.LoadClip "clip.mp4" 0 2000) none).state
        = ⟨some "clip.mp4", 0, 2000, none, none, false, 0⟩ := rfl
    rw [h1]
    have h2 : (applyCommand ⟨some "clip.mp4", 0, 2000, none, none, false, 0⟩
        (PlayerCommand.StartPlayback 500)
        (some (List.replicate frame_size 0))).state
        = ⟨some "clip.mp4", 0, 2000, some 0,
            some (List.replicate frame_size 0), true, 1⟩ := rfl
    rw [h2]
    have hlen : frame_size ≤ (List.replicate frame_size (0 : Byte)).length := by
      rw [List.length_replicate]
    simp only [frameTick, hlen, if_true, reduceIte, Bool.false_eq_true,
      if_false, List.cons_append, List.nil_append, List.singleton_append]
  · decide

/-- **C7 amended**: a frame produced by the single-shot Seek path carries the
Seek's position as its timestamp, but a frame produced by the continuous
playback path (including the final blank frame) always carries timestamp 0,
whatever position it represents. -/
theorem frame_timestamp_semantics :
    (∀ (st : WorkerState) (t : Nat) (o : Option (List Byte))
        (f : DecodedFrame),
        PlayerEvent.frameSent f
            ∈ (applyCommand st (PlayerCommand.Seek t) o).events →
        f.timestamp_ms = t)
    ∧ (∀ (st : WorkerState) (f : DecodedFrame),
        PlayerEvent.frameSent f ∈ (frameTick st).2 → f.timestamp_ms = 0) := by
  constructor
  · intro st t o f hmem
    obtain ⟨t2, out, hc, ho, hlen, hf⟩ := applyCommand_frameSent st _ o f hmem
    injection hc with h1
    subst h1
    subst hf
    rfl
  · intro st f hmem
    exact (frameTick_frameSent st f hmem).1

/-- Witness for the amended C7: a concrete Seek at position 9 yields a frame
stamped 9. -/
theorem frame_timestamp_semantics_witness :
    (⟨ColorImage.from_rgba_unmultiplied (PREVIEW_WIDTH, PREVIEW_HEIGHT)
        ((List.replicate frame_size 0).take frame_size), 9⟩
      : DecodedFrame).timestamp_ms = 9 :=
  frame_timestamp_semantics.1 ⟨some "c", 0, 0, none, none, false, 0⟩ 9
    (some (List.replicate frame_size 0)) _ (by
      have hlen : frame_size ≤ (List.replicate frame_size (0 : Byte)).length := by
        rw [List.length_replicate]
      simp only [applyCommand, hlen, if_true, reduceIte, Bool.false_eq_true,
        if_false, List.cons_append, List.nil_append, List.singleton_append]
      simp)

/-- **C8**: every frame sent on the frame channel — single-shot seek frames,
continuous playback frames and the final blank frame — carries exactly
`width*height*4` bytes of pixel data at the fixed preview dimensions. -/
theorem frame_size_invariant :
    (∀ (st : WorkerState) (cmd : PlayerCommand) (o : Option (List Byte))
        (f : DecodedFrame),
        PlayerEvent.frameSent f ∈ (applyCommand st cmd o).events →
        f.byteCount = PREVIEW_WIDTH * PREVIEW_HEIGHT * 4
        ∧ f.image.size = (PREVIEW_WIDTH, PREVIEW_HEIGHT))
    ∧ (∀ (st : WorkerState) (f : DecodedFrame),
        PlayerEvent.frameSent f ∈ (frameTick st).2 →
        f.byteCount = PREVIEW_WIDTH * PREVIEW_HEIGHT * 4
        ∧ f.image.size = (PREVIEW_WIDTH, PREVIEW_HEIGHT)) := by
  constructor
  · intro st cmd o f hmem
    obtain ⟨t, out, hc, ho, hlen, hf⟩ := applyCommand_frameSent st cmd o f hmem
    subst hf
    refine ⟨?_, rfl⟩
    rw [byteCount_mk, from_rgba_pixels, toPixels_length, List.length_take,
      min_eq_left hlen]
    decide
  · intro st f hmem
    exact ⟨(frameTick_frameSent st f hmem).2.1,
      (frameTick_frameSent st f hmem).2.2⟩

/-- Witness for C8: the frame produced by a concrete successful Seek has
exactly `width*height*4` bytes at the preview dimensions. -/
theorem frame_size_invariant_witness :
    (⟨ColorImage.from_rgba_unmultiplied (PREVIEW_WIDTH, PREVIEW_HEIGHT)
        ((List.replicate frame_size 0).take frame_size), 9⟩
      : DecodedFrame).byteCount = PREVIEW_WIDTH * PREVIEW_HEIGHT * 4
    ∧ (⟨ColorImage.from_rgba_unmultiplied (PREVIEW_WIDTH, PREVIEW_HEIGHT)
        ((List.replicate frame_size 0).take frame_size), 9⟩
      : DecodedFrame).image.size = (PREVIEW_WIDTH, PREVIEW_HEIGHT) :=
  frame_size_invariant.1 ⟨some "c", 0, 0, none, none, false, 0⟩
    (PlayerCommand.Seek 9) (some (List.replicate frame_size 0)) _ (by
      have hlen : frame_size ≤ (List.replicate frame_size (0 : Byte)).length := by
        rw [List.length_replicate]
      simp only [applyCommand, hlen, if_true, reduceIte, Bool.false_eq_true,
        if_false, List.cons_append, List.nil_append, List.singleton_append]
      simp)

/-- **C9**: StopPlayback while already Idle leaves the state unchanged and
spawns nothing (part 1, for any reachable idle state), and StopPlayback is
idempotent on states: a second StopPlayback right after a first one changes
nothing (part 2, for every state). -/
theorem stop_playback_idempotent :
    (∀ (st : WorkerState) (o : Option (List Byte)), SessionInv st →
        st.is_playing = false →
        applyCommand st PlayerCommand.StopPlayback o
          = ⟨st, [PlayerEvent.cmdApplied PlayerCommand.StopPlayback], false⟩)
    ∧ (∀ (st : WorkerState) (o o2 : Option (List Byte)),
        (applyCommand (applyCommand st PlayerCommand.StopPlayback o).state
            PlayerCommand.StopPlayback o2).state
          = (applyCommand st PlayerCommand.StopPlayback o).state) := by
  constructor
  · intro st o h hip
    obtain ⟨cp, ts, te, pp, so, ip, np⟩ := st
    simp only at hip
    subst hip
    obtain ⟨hpp, hso⟩ := h.2 rfl
    simp only at hpp hso
    subst hpp; subst hso
    simp [applyCommand, takeKillWait]
  · intro st o o2
    obtain ⟨cp, ts, te, pp, so, ip, np⟩ := st
    cases pp <;> simp [applyCommand, takeKillWait]

/-- Witness for C9: StopPlayback on the freshly started (idle) worker state
returns it unchanged. -/
theorem stop_playback_idempotent_witness :
    applyCommand initialState PlayerCommand.StopPlayback none
      = ⟨initialState, [PlayerEvent.cmdApplied PlayerCommand.StopPlayback],
          false⟩ :=
  stop_playback_idempotent.1 initialState none (by decide) rfl

/-- **C10**: a PlaybackEnded event is never produced by any command handler
(part 1); LoadClip, StopPlayback and Stop never emit any frame, blank or
otherwise, even when they kill an active decoder (part 2); within the frame
loop, a PlaybackEnded is emitted only on the end-of-stream read-failure path,
i.e. only when playing with fewer than `frame_size` bytes left (part 3). -/
theorem playback_ended_only_at_stream_end :
    (∀ (st : WorkerState) (cmd : PlayerCommand) (o : Option (List Byte)),
        PlayerEvent.playbackEnded ∉ (applyCommand st cmd o).events)
    ∧ (∀ (st : WorkerState) (o : Option (List Byte)),
        (∀ (p : PathBuf) (a b : Nat) (f : DecodedFrame),
            PlayerEvent.frameSent f
              ∉ (applyCommand st (PlayerCommand.LoadClip p a b) o).events)
        ∧ (∀ f : DecodedFrame, PlayerEvent.frameSent f
              ∉ (applyCommand st PlayerCommand.StopPlayback o).events)
        ∧ (∀ f : DecodedFrame, PlayerEvent.frameSent f
              ∉ (applyCommand st PlayerCommand.Stop o).events))
    ∧ (∀ st : WorkerState, PlayerEvent.playbackEnded ∈ (frameTick st).2 →
        st.is_playing = true
        ∧ ∃ s, st.playback_stdout = some s ∧ s.length < frame_size) := by
  refine ⟨applyCommand_no_playbackEnded, ?_, ?_⟩
  · intro st o
    refine ⟨?_, ?_, ?_⟩ <;> intros <;> intro hmem
    · obtain ⟨t, out, hc, -, -, -⟩ := applyCommand_frameSent st _ o _ hmem
      exact PlayerCommand.noConfusion hc
    · obtain ⟨t, out, hc, -, -, -⟩ := applyCommand_frameSent st _ o _ hmem
      exact PlayerCommand.noConfusion hc
    · obtain ⟨t, out, hc, -, -, -⟩ := applyCommand_frameSent st _ o _ hmem
      exact PlayerCommand.noConfusion hc
  · intro st hmem
    obtain ⟨cp, ts, te, pp, so, ip, np⟩ := st
    cases ip with
    | false => simp [frameTick] at hmem
    | true =>
        cases so with
        | none => simp [frameTick] at hmem
        | some stream =>
            by_cases hlen : frame_size ≤ stream.length
            · simp only [frameTick, hlen, if_true, reduceIte,
                Bool.true_eq_false, if_false, List.cons_append,
                List.nil_append, List.singleton_append] at hmem
              simp at hmem
            · exact ⟨rfl, stream, rfl, by omega⟩

/-- Witness for C10: the end-of-stream iteration of a concrete playing state
with an exhausted stream implies that state was playing with a short
stream. -/
theorem playback_ended_only_at_stream_end_witness :
    (⟨some "clip.mp4", 0, 2000, some 3, some [], true, 4⟩
        : WorkerState).is_playing = true
    ∧ ∃ s, (⟨some "clip.mp4", 0, 2000, some 3, some [], true, 4⟩
        : WorkerState).playback_stdout = some s ∧ s.length < frame_size :=
  playback_ended_only_at_stream_end.2.2
    ⟨some "clip.mp4", 0, 2000, some 3, some [], true, 4⟩ (by
      have hlen : ¬ frame_size ≤ ([] : List Byte).length := by decide
      simp only [frameTick, hlen, if_true, reduceIte, Bool.true_eq_false,
        if_false, List.cons_append, List.nil_append, List.singleton_append]
      simp)
